import Mathlib

/-!
# Verification of the timberjack benchmark-analysis pipeline

Shallow embedding of `src/benchmark/analyze_results.py` and
`src/benchmark_data/generate_charts.py`.  The scripts work on a pandas
DataFrame of benchmark measurements; we model a DataFrame as a `List` of
records, float arithmetic as exact rationals extended with the IEEE
non-finite values (`inf`, `-inf`, `nan`), and each analysis function of the
scripts as a Lean function on those lists.
-/

namespace Timberjack

instance {ε α : Type} [DecidableEq ε] [DecidableEq α] :
    DecidableEq (Except ε α) := fun a b =>
  match a, b with
  | .ok x, .ok y =>
      if h : x = y then isTrue (by rw [h]) else isFalse (by simp [h])
  | .error x, .error y =>
      if h : x = y then isTrue (by rw [h]) else isFalse (by simp [h])
  | .ok _, .error _ => isFalse (by simp)
  | .error _, .ok _ => isFalse (by simp)

/-- Model of an IEEE double as it flows through the scripts' numpy/pandas
arithmetic: a finite value is an exact rational; `inf`, `ninf` and `nan`
model the non-finite values that numpy produces (e.g. on division by zero,
which warns and yields a non-finite value rather than raising). -/
inductive Flt where
  | fin : ℚ → Flt
  | inf : Flt
  | ninf : Flt
  | nan : Flt
deriving DecidableEq, Inhabited

/-- Float division exactly as numpy performs it on scalars: finite by finite
nonzero is exact division; finite nonzero by zero gives a signed infinity;
zero by zero gives `nan`; a finite value divided by an infinity gives zero;
an infinity divided by a finite value keeps (sign-adjusted) infinity; all
remaining combinations (anything with `nan`, infinity by infinity) give
`nan`. -/
def fdiv : Flt → Flt → Flt
  | .fin a, .fin b =>
      if b = 0 then (if 0 < a then .inf else if a < 0 then .ninf else .nan)
      else .fin (a / b)
  | .fin _, .inf => .fin 0
  | .fin _, .ninf => .fin 0
  | .inf, .fin b => if b < 0 then .ninf else .inf
  | .ninf, .fin b => if b < 0 then .inf else .ninf
  | _, _ => .nan

/-- The IEEE strict-less-than comparison on our float model: any comparison
involving `nan` is false; `-inf` is below everything else; `inf` is above
everything else. -/
def fltLt : Flt → Flt → Bool
  | .fin a, .fin b => a < b
  | .fin _, .inf => true
  | .ninf, .fin _ => true
  | .ninf, .inf => true
  | _, _ => false

/-- Rank used for the pandas sort order on a float column: `NaN` is placed
last (`na_position='last'`), the remaining values in numeric order. -/
def fltRank : Flt → ℕ
  | .ninf => 0
  | .fin _ => 1
  | .inf => 2
  | .nan => 3

/-- Numeric component of the sort key (only meaningful for finite values). -/
def fltVal : Flt → ℚ
  | .fin q => q
  | _ => 0

/-- Total preorder on floats as `pandas.sort_values` orders a column:
numeric order with `NaN` sorted last. -/
def fltKeyLE (x y : Flt) : Prop :=
  fltRank x < fltRank y ∨ (fltRank x = fltRank y ∧ fltVal x ≤ fltVal y)

instance : DecidableRel fltKeyLE := fun x y => by
  unfold fltKeyLE; infer_instance

theorem fltKeyLE_total (x y : Flt) : fltKeyLE x y ∨ fltKeyLE y x := by
  unfold fltKeyLE
  rcases Nat.lt_trichotomy (fltRank x) (fltRank y) with h | h | h
  · exact Or.inl (Or.inl h)
  · rcases le_total (fltVal x) (fltVal y) with h' | h'
    · exact Or.inl (Or.inr ⟨h, h'⟩)
    · exact Or.inr (Or.inr ⟨h.symm, h'⟩)
  · exact Or.inr (Or.inl h)

theorem fltKeyLE_trans {x y z : Flt} (h1 : fltKeyLE x y) (h2 : fltKeyLE y z) :
    fltKeyLE x z := by
  unfold fltKeyLE at *
  rcases h1 with h1 | ⟨h1, h1'⟩ <;> rcases h2 with h2 | ⟨h2, h2'⟩
  · exact Or.inl (h1.trans h2)
  · exact Or.inl (h2 ▸ h1)
  · exact Or.inl (h1 ▸ h2)
  · exact Or.inr ⟨h1.trans h2, h1'.trans h2'⟩

/-- One raw row of `benchmark_results.csv` as read by the strict
(header-based) path of `analyze_results.py`: columns `tool`, `log`,
`time_seconds`, `memory_mb`. -/
structure RawRow where
  tool : String
  log : String
  time_seconds : ℚ
  memory_mb : ℚ
deriving DecidableEq, Inhabited

/-- A normalized record: a raw row augmented by `load_data` with the
extracted `size_name` and the mapped `size_numeric` column. -/
structure Rec where
  tool : String
  log : String
  time_seconds : ℚ
  memory_mb : ℚ
  size_name : String
  size_numeric : Flt
deriving DecidableEq, Inhabited

/-- The fixed size-label table `size_mapping` of `analyze_results.py`. -/
def size_mapping : List (String × ℚ) :=
  [("10k", 10000), ("100k", 100000), ("1m", 1000000)]

/-- `df['size_name'].map(size_mapping)`: a label present in the table maps
to its numeric value; an absent label maps to `NaN` (pandas `Series.map`
with a dict fills unmatched keys with `NaN`). -/
def mapSize (s : String) : Flt :=
  match size_mapping.lookup s with
  | some q => .fin q
  | none => .nan

/-- Python `str.split` with a one-character separator, on the character
list of the string: no collapsing of adjacent separators, the empty string
splits to one empty segment.  (A hand-rolled structural version is used so
that proofs can evaluate it.) -/
def splitOnChar (c : Char) : List Char → List (List Char)
  | [] => [[]]
  | x :: xs =>
    match splitOnChar c xs with
    | [] => [[]]
    | h :: t => if x = c then [] :: h :: t else (x :: h) :: t

/-- `x.split('_')[1].split('.')[0]` of the strict loader: `none` models the
`IndexError` raised when the log name has no `_`-separated second segment
(`split('.')[0]` itself cannot fail, a split is never empty). -/
def extract_size_name (log : String) : Option String :=
  ((splitOnChar '_' log.toList).get? 1).map
    (fun s => String.mk ((splitOnChar '.' s).headD []))

/-- Errors of the strict loading path.  The only operation of `load_data`
that can raise on a well-typed row is the size-token extraction
(an uncaught `IndexError`); no other failure exists in that code path. -/
inductive LoadError where
  | malformedIdentifier : String → LoadError
deriving DecidableEq

/-- Normalization of a single row by `load_data`: extract the size token
and attach the mapped numeric size. -/
def normalizeRow (r : RawRow) : Except LoadError Rec :=
  match extract_size_name r.log with
  | none => .error (.malformedIdentifier r.log)
  | some sn =>
      .ok { tool := r.tool, log := r.log, time_seconds := r.time_seconds,
            memory_mb := r.memory_mb, size_name := sn,
            size_numeric := mapSize sn }

/-- Row-wise normalization of the whole table; the first failing row aborts
the load, as the uncaught exception would. -/
def normalizeRows : List RawRow → Except LoadError (List Rec)
  | [] => .ok []
  | r :: rs =>
      match normalizeRow r with
      | .error e => .error e
      | .ok rec0 =>
          match normalizeRows rs with
          | .error e => .error e
          | .ok recs => .ok (rec0 :: recs)

/-- Lexicographic code-point comparison of character lists: the string
order Python uses when pandas sorts an object column of `str`. -/
def charListLt : List Char → List Char → Bool
  | [], [] => false
  | [], _ :: _ => true
  | _ :: _, [] => false
  | a :: as, b :: bs => if a < b then true else if b < a then false else charListLt as bs

/-- Python string `<`, by Unicode code point. -/
def strLt (a b : String) : Bool := charListLt a.toList b.toList

/-- Python string `<=`, by Unicode code point. -/
def strLE (a b : String) : Bool := !(strLt b a)

/-- Sort key of `df.sort_values(['tool', 'size_numeric'])`: tool name
first, then numeric size with `NaN` last; the multi-key pandas sort is
stable, which insertion sort models. -/
def loadLE (a b : Rec) : Prop :=
  strLt a.tool b.tool = true ∨
    (a.tool = b.tool ∧ fltKeyLE a.size_numeric b.size_numeric)

instance : DecidableRel loadLE := fun a b => by
  unfold loadLE; infer_instance

/-- `load_data` of `analyze_results.py` on an in-memory table: normalize
every row, then sort by `(tool, size_numeric)`. -/
def load_data (rows : List RawRow) : Except LoadError (List Rec) :=
  (normalizeRows rows).map (fun recs => recs.insertionSort loadLE)

/-! ## Fixed-point formatting (Python `f"{x:.prec f}"`) -/

/-- Round to the nearest integer, ties to even, as Python float formatting
does on the exact value. -/
def roundHalfEven (x : ℚ) : ℤ :=
  let f := ⌊x⌋
  let r := x - f
  if r < 1 / 2 then f
  else if 1 / 2 < r then f + 1
  else if f % 2 = 0 then f else f + 1

/-- Decimal digits of a natural number, padded on the left with zeros to a
given width. -/
def natPad (width : ℕ) (n : ℕ) : String :=
  let s := toString n
  String.mk (List.replicate (width - s.length) '0') ++ s

/-- `f"{q:.prec f}"` on a finite value: fixed-point decimal notation with
`prec` digits after the point, rounding ties to even. -/
def fmtFixed (prec : ℕ) (q : ℚ) : String :=
  let scaled := roundHalfEven (q * (10 ^ prec : ℕ))
  let sign := if scaled < 0 then "-" else ""
  sign ++ toString (scaled.natAbs / 10 ^ prec) ++ "." ++
    natPad prec (scaled.natAbs % 10 ^ prec)

/-- `f"{x:.prec f}"` on our float model; Python renders the non-finite
doubles as `inf`, `-inf` and `nan` under this format. -/
def fmtFlt (prec : ℕ) : Flt → String
  | .fin q => fmtFixed prec q
  | .inf => "inf"
  | .ninf => "-inf"
  | .nan => "nan"

/-! ## Scaling Analyzer (`generate_scaling_analysis`) -/

/-- Helper for `uniqueFirst`: keep the values not seen yet, in order. -/
def uniqueFirstAux (seen : List String) : List String → List String
  | [] => []
  | x :: xs =>
      if x ∈ seen then uniqueFirstAux seen xs
      else x :: uniqueFirstAux (x :: seen) xs

/-- `df['tool'].unique()` / `df['size_name'].unique()`: the distinct values
of a column in order of first appearance. -/
def uniqueFirst (l : List String) : List String := uniqueFirstAux [] l

/-- `df[df['tool'] == tool]`: the rows of one tool, in table order. -/
def toolRecs (df : List Rec) (t : String) : List Rec :=
  df.filter (fun r => r.tool = t)

/-- Sort key relation of `tool_data.sort_values('size_numeric')`. -/
def sizeLE (a b : Rec) : Prop := fltKeyLE a.size_numeric b.size_numeric

instance : DecidableRel sizeLE := fun a b => by
  unfold sizeLE; infer_instance

instance : IsTotal Rec sizeLE :=
  ⟨fun a b => fltKeyLE_total a.size_numeric b.size_numeric⟩

instance : IsTrans Rec sizeLE := ⟨fun _ _ _ => fltKeyLE_trans⟩

/-- `tool_data.sort_values('size_numeric')`, modelled as a stable sort by
the size key (numpy's default sort is unstable in general but coincides
with the stable result on the small groups these tables hold, where numpy
falls back to insertion sort). -/
def sortBySize (l : List Rec) : List Rec := l.insertionSort sizeLE

/-- The three ratios computed for one adjacent pair of rows inside the
scaling loop of `generate_scaling_analysis`. -/
structure ScalingComp where
  size_ratio : Flt
  time_ratio : Flt
  scaling_factor : Flt
deriving DecidableEq, Inhabited

/-- `size_ratio`, `time_ratio` and `scaling_factor = time_ratio /
size_ratio` for a `(prev, curr)` pair, with numpy float division. -/
def scalingComp (prev curr : Rec) : ScalingComp :=
  let sr := fdiv curr.size_numeric prev.size_numeric
  let tr := fdiv (.fin curr.time_seconds) (.fin prev.time_seconds)
  { size_ratio := sr, time_ratio := tr, scaling_factor := fdiv tr sr }

/-- One element appended to `scaling_data`: the script stores the tool, the
size transition, and the two formatted ratio strings. -/
structure ScalingEntry where
  tool : String
  sizeChange : String
  timeIncrease : String
  scalingFactor : String
deriving DecidableEq, Inhabited

/-- The dict the loop body appends for the pair `(prev, curr)` of `tool`:
`{'Tool': tool, 'Size Change': f"{prev} → {curr}", 'Time Increase':
f"{time_ratio:.2f}x", 'Scaling Factor': f"{scaling_factor:.3f}"}`. -/
def scalingEntry (t : String) (prev curr : Rec) : ScalingEntry :=
  let c := scalingComp prev curr
  { tool := t,
    sizeChange := prev.size_name ++ " → " ++ curr.size_name,
    timeIncrease := fmtFlt 2 c.time_ratio ++ "x",
    scalingFactor := fmtFlt 3 c.scaling_factor }

/-- The scaling entries of one tool: its rows sorted by `size_numeric`,
then (when at least two rows exist) one entry per index `i` in
`range(1, len)`, pairing row `i-1` with row `i`. -/
def entriesForTool (df : List Rec) (t : String) : List ScalingEntry :=
  let l := sortBySize (toolRecs df t)
  if 2 ≤ l.length then
    (List.range (l.length - 1)).map
      (fun i => scalingEntry t (l.getD i default) (l.getD (i + 1) default))
  else []

/-- The full `scaling_data` list of `generate_scaling_analysis`: tools in
first-appearance order, each contributing its adjacent-pair entries. -/
def generate_scaling_analysis (df : List Rec) : List ScalingEntry :=
  ((uniqueFirst (df.map (·.tool))).map (fun t => entriesForTool df t)).flatten

/-! ## Ranking Engine (`generate_rankings`) -/

/-- Number of column entries strictly below `v`. -/
def countLt (vals : List ℚ) (v : ℚ) : ℕ := vals.countP (fun w => w < v)

/-- Number of column entries equal to `v` (the size of `v`'s tie group). -/
def countEq (vals : List ℚ) (v : ℚ) : ℕ := vals.countP (fun w => w = v)

/-- `pandas.Series.rank()` with its default `method='average'` on a value
`v` of the column `vals`: the strictly smaller entries push the value up,
and the `k` entries tied with `v` share the mean of the `k` consecutive
1-based positions they jointly occupy, which equals
`count(< v) + (count(= v) + 1) / 2`. -/
def rankAvg (vals : List ℚ) (v : ℚ) : ℚ :=
  (countLt vals v : ℚ) + ((countEq vals v : ℚ) + 1) / 2

/-- The spec's description of tie-averaged ranks: the mean of the `k`
consecutive rank positions `c + 1, …, c + k` jointly occupied by a tie
group that sits above `c` strictly smaller values. -/
def meanOfPositions (c k : ℕ) : ℚ :=
  (∑ i ∈ Finset.range k, ((c : ℚ) + 1 + (i : ℚ))) / (k : ℚ)

/-- One output row of `generate_rankings` for one size bucket, holding the
two ranks and the combined score next to the raw metrics.  (The script
additionally renders `time_seconds` with `{:.3f}` and `memory_mb` with
`{:.2f}` for display; the numeric columns are kept here.) -/
structure RankedRow where
  tool : String
  time_seconds : ℚ
  memory_mb : ℚ
  time_rank : ℚ
  memory_rank : ℚ
  combined_score : ℚ
deriving DecidableEq, Inhabited

/-- `df[df['size_name'] == size]`: the rows of one size bucket, in table
order. -/
def bucketRecs (df : List Rec) (size : String) : List Rec :=
  df.filter (fun r => r.size_name = size)

/-- The bucket table after the three assignments
`size_df['time_rank'] = size_df['time_seconds'].rank()`,
`size_df['memory_rank'] = size_df['memory_mb'].rank()` and
`size_df['combined_score'] = (time_rank + memory_rank) / 2`. -/
def rankBucket (df : List Rec) (size : String) : List RankedRow :=
  let b := bucketRecs df size
  let times := b.map (·.time_seconds)
  let mems := b.map (·.memory_mb)
  b.map (fun r =>
    let tr := rankAvg times r.time_seconds
    let mr := rankAvg mems r.memory_mb
    { tool := r.tool, time_seconds := r.time_seconds,
      memory_mb := r.memory_mb, time_rank := tr, memory_rank := mr,
      combined_score := (tr + mr) / 2 })

/-- Sort key relation of `size_df.sort_values('combined_score')`: the
combined score only — the script applies no further tie-break key. -/
def scoreLE (a b : RankedRow) : Prop := a.combined_score ≤ b.combined_score

instance : DecidableRel scoreLE := fun a b => by
  unfold scoreLE; infer_instance

instance : IsTotal RankedRow scoreLE :=
  ⟨fun a b => le_total a.combined_score b.combined_score⟩

instance : IsTrans RankedRow scoreLE :=
  ⟨fun _ _ _ h1 h2 => le_trans h1 h2⟩

/-- The ranking table emitted for one size bucket:
`size_df.sort_values('combined_score')`, modelled as a stable sort (numpy
insertion-sorts the small groups at hand). -/
def generate_rankings_for (df : List Rec) (size : String) : List RankedRow :=
  (rankBucket df size).insertionSort scoreLE

/-- `generate_rankings`: one ranking table per size bucket, buckets in
first-appearance order. -/
def generate_rankings (df : List Rec) : List (String × List RankedRow) :=
  (uniqueFirst (df.map (·.size_name))).map
    (fun s => (s, generate_rankings_for df s))

/-! ## Comparative Ratio Engine (`generate_comparative_analysis`) -/

/-- The tool name the script filters on to find the baseline rows
(`size_df[size_df['tool'] == 'timber']`). -/
def referenceTool : String := "timber"

/-- One row appended to `comparative_data`, together with the two phrase
columns the script then adds row-wise with `DataFrame.apply`. -/
structure ComparativeEntry where
  file_size : String
  tool : String
  time_ratio : Flt
  memory_ratio : Flt
  timber_time : ℚ
  tool_time : ℚ
  timber_memory : ℚ
  tool_memory : ℚ
  time_comparison : String
  memory_comparison : String
deriving DecidableEq, Inhabited

/-- The `Time Comparison` column: `f"Timber is {1/x:.2f}x slower"` when the
time ratio compares below `1`, else `f"Timber is {x:.2f}x faster"`. -/
def timeComparisonPhrase (r : Flt) : String :=
  if fltLt r (.fin 1) then
    "Timber is " ++ fmtFlt 2 (fdiv (.fin 1) r) ++ "x slower"
  else
    "Timber is " ++ fmtFlt 2 r ++ "x faster"

/-- The `Memory Comparison` column: `f"Timber uses {1/x:.2f}x more memory"`
when the memory ratio compares below `1`, else
`f"Timber uses {x:.2f}x less memory"`. -/
def memoryComparisonPhrase (r : Flt) : String :=
  if fltLt r (.fin 1) then
    "Timber uses " ++ fmtFlt 2 (fdiv (.fin 1) r) ++ "x more memory"
  else
    "Timber uses " ++ fmtFlt 2 r ++ "x less memory"

/-- The entry built for one non-reference row `r` against the first
reference row `tref` of the bucket. -/
def comparativeEntry (size : String) (tref r : Rec) : ComparativeEntry :=
  let tr := fdiv (.fin tref.time_seconds) (.fin r.time_seconds)
  let mr := fdiv (.fin tref.memory_mb) (.fin r.memory_mb)
  { file_size := size, tool := r.tool, time_ratio := tr, memory_ratio := mr,
    timber_time := tref.time_seconds, tool_time := r.time_seconds,
    timber_memory := tref.memory_mb, tool_memory := r.memory_mb,
    time_comparison := timeComparisonPhrase tr,
    memory_comparison := memoryComparisonPhrase mr }

/-- The comparative entries of one size bucket: skipped entirely when the
bucket has no reference row (`if len(timber_time) == 0: continue`),
otherwise one entry per non-reference row against the first reference row
(`.values[0]`). -/
def comparativeForSize (df : List Rec) (size : String) : List ComparativeEntry :=
  let b := bucketRecs df size
  match b.find? (fun r => r.tool = referenceTool) with
  | none => []
  | some tref =>
      (b.filter (fun r => r.tool ≠ referenceTool)).map
        (fun r => comparativeEntry size tref r)

/-- The full `comparative_data` list: size buckets in first-appearance
order, each contributing its entries. -/
def generate_comparative_analysis (df : List Rec) : List ComparativeEntry :=
  ((uniqueFirst (df.map (·.size_name))).map
    (fun s => comparativeForSize df s)).flatten

/-! ## Pivot Aggregator (`df.pivot` + `reindex`) -/

/-- The metric column selected for a pivot (`values='time_seconds'` or
`values='memory_mb'`). -/
inductive Metric where
  | time : Metric
  | memory : Metric
deriving DecidableEq

/-- The selected metric value of a record. -/
def metricOf : Metric → Rec → ℚ
  | .time, r => r.time_seconds
  | .memory, r => r.memory_mb

/-- The failure of `df.pivot`: pandas raises
`ValueError: Index contains duplicate entries, cannot reshape` when two
rows share the `(index, columns)` key; the spec names this condition
`DuplicateKeyError`. -/
inductive PivotError where
  | duplicateKey : PivotError
deriving DecidableEq

/-- The `(size_name, tool)` key of every row, in table order. -/
def pivotKeys (df : List Rec) : List (String × String) :=
  df.map (fun r => (r.size_name, r.tool))

/-- One cell of the pivoted frame: the metric value of the row with the
given `(size, tool)` key, `NaN` (here `none`) when no such row exists. -/
def pivotCell (df : List Rec) (m : Metric) (size tool : String) : Option ℚ :=
  (df.find? (fun r => r.size_name = size && r.tool = tool)).map (metricOf m)

/-- Lexicographically sorted distinct values of a column: the row/column
index that `df.pivot` builds. -/
def sortedUnique (l : List String) : List String :=
  (uniqueFirst l).insertionSort (fun a b => strLE a b = true)

/-- A pivoted frame: a row index, a column index, and the cell contents
(`none` is a `NaN` hole). -/
structure PivotTable where
  rowLabels : List String
  colLabels : List String
  cell : String → String → Option ℚ

/-- `df.pivot(index='size_name', columns='tool', values=metric)`: raises on
a duplicated `(size_name, tool)` key, otherwise the cross-product table of
the distinct sizes and tools with `NaN` holes. -/
def pivot (df : List Rec) (m : Metric) : Except PivotError PivotTable :=
  if (pivotKeys df).Nodup then
    .ok { rowLabels := sortedUnique (df.map (·.size_name)),
          colLabels := sortedUnique (df.map (·.tool)),
          cell := pivotCell df m }
  else .error .duplicateKey

/-- The fixed bucket order `size_order = ['10k', '100k', '1m']`. -/
def size_order : List String := ["10k", "100k", "1m"]

/-- `pivot_df.reindex(size_order)` in `generate_time_comparison` /
`generate_memory_comparison` of `analyze_results.py`: the row index becomes
exactly `size_order` — labels missing from the data are inserted as all-NaN
rows, labels outside `size_order` are dropped. -/
def generate_metric_comparison (df : List Rec) (m : Metric) :
    Except PivotError PivotTable :=
  (pivot df m).map (fun P => { P with rowLabels := size_order })

/-- The time instance, `generate_time_comparison`. -/
def generate_time_comparison (df : List Rec) : Except PivotError PivotTable :=
  generate_metric_comparison df .time

/-- Row index of a pivot result (empty when the pivot raised). -/
def rowsOfExcept : Except PivotError PivotTable → List String
  | .ok P => P.rowLabels
  | .error _ => []

/-- Cell lookup on a pivot result (`none` when the pivot raised). -/
def cellOfExcept (e : Except PivotError PivotTable) (size tool : String) :
    Option ℚ :=
  match e with
  | .ok P => P.cell size tool
  | .error _ => none

/-! ## Lenient headerless loader (`generate_charts.py`) -/

/-- One surviving row of
`pd.read_csv(..., header=None, names=['tool','log','time_seconds'],
on_bad_lines='skip')` followed by the size extraction: the raw fields
(missing trailing fields are `NaN`, i.e. `none`) plus the extracted size
token. -/
structure ChartRow where
  tool : String
  log : Option String
  time_field : Option String
  size : String
deriving DecidableEq, Inhabited

/-- `extract_size` of `generate_charts.py`:
`log.split('_')[1].split('.')[0]`, returning `None` both on `IndexError`
(no second `_`-segment) and on `AttributeError` (the `log` cell is `NaN`
because the row was short). -/
def extract_size (log : Option String) : Option String :=
  match log with
  | none => none
  | some s =>
      ((splitOnChar '_' s.toList).get? 1).map
        (fun seg => String.mk ((splitOnChar '.' seg).headD []))

/-- Fate of one raw CSV line (its field list) in the lenient path: blank
lines are skipped by the reader; lines with more than the 3 named columns
are skipped by `on_bad_lines='skip'`; shorter lines are padded with `NaN`;
finally `dropna(subset=['size'])` drops every row whose size token could
not be extracted. -/
def parseChartLine (fields : List String) : Option ChartRow :=
  if fields.length = 0 then none
  else if 3 < fields.length then none
  else
    match extract_size (fields.get? 1) with
    | none => none
    | some sz =>
        some { tool := fields.headD "", log := fields.get? 1,
               time_field := fields.get? 2, size := sz }

/-- The lenient headerless load: every line is parsed independently and the
failures are dropped; the load itself always succeeds. -/
def chartsLoad (lines : List (List String)) : List ChartRow :=
  lines.filterMap parseChartLine

/-- The reindex argument of `generate_charts.py`:
`[s for s in size_order if s in time_df.index]` — the fixed bucket order
restricted to the sizes present in the pivoted data. -/
def charts_time_rows (rows : List ChartRow) : List String :=
  size_order.filter (fun s => s ∈ rows.map (·.size))

/-! ## Helper lemmas -/

theorem sum_range_cast (n : ℕ) :
    (∑ i ∈ Finset.range n, (i : ℚ)) = n * (n - 1) / 2 := by
  induction n with
  | zero => simp
  | succ m ih =>
      rw [Finset.sum_range_succ, ih]
      push_cast
      ring

/-- The implemented average rank equals the mean of the `k` consecutive
1-based positions that the tied group occupies. -/
theorem rankAvg_eq_mean_positions (vals : List ℚ) (v : ℚ)
    (hk : 1 ≤ countEq vals v) :
    rankAvg vals v = meanOfPositions (countLt vals v) (countEq vals v) := by
  set c : ℕ := countLt vals v with hc
  set k : ℕ := countEq vals v with hkdef
  have hk0 : (k : ℚ) ≠ 0 := by
    have : 0 < k := Nat.lt_of_lt_of_le Nat.zero_lt_one hk
    exact_mod_cast this.ne'
  have hsum : (∑ i ∈ Finset.range k, ((c : ℚ) + 1 + (i : ℚ)))
      = k * ((c : ℚ) + 1) + k * (k - 1) / 2 := by
    rw [Finset.sum_add_distrib, Finset.sum_const, Finset.card_range,
      sum_range_cast]
    ring
  rw [rankAvg, meanOfPositions, hsum]
  field_simp
  ring

theorem find?_key_unique {df : List Rec} (hnd : (pivotKeys df).Nodup)
    {r : Rec} (hr : r ∈ df) :
    df.find? (fun x => x.size_name = r.size_name && x.tool = r.tool)
      = some r := by
  induction df with
  | nil => cases hr
  | cons h t ih =>
      rw [pivotKeys, List.map_cons, List.nodup_cons] at hnd
      rcases List.mem_cons.mp hr with rfl | hrt
      · simp [List.find?_cons]
      · have hkey : ¬ (h.size_name = r.size_name ∧ h.tool = r.tool) := by
          intro ⟨h1, h2⟩
          exact hnd.1 (by
            rw [h1, h2]
            exact List.mem_map.mpr ⟨r, hrt, rfl⟩)
        have hpred : (h.size_name = r.size_name && h.tool = r.tool) = false := by
          simpa [Bool.and_eq_true] using hkey
        rw [List.find?_cons, hpred]
        exact ih hnd.2 hrt

theorem normalizeRows_mem {rows : List RawRow} {recs : List Rec}
    (h : normalizeRows rows = .ok recs) :
    ∀ r ∈ recs, r.size_numeric = mapSize r.size_name := by
  induction rows generalizing recs with
  | nil =>
      rw [normalizeRows] at h
      cases h
      intro r hr
      cases hr
  | cons x xs ih =>
      rw [normalizeRows] at h
      cases hx : normalizeRow x with
      | error e => rw [hx] at h; cases h
      | ok rec0 =>
          rw [hx] at h
          cases hxs : normalizeRows xs with
          | error e => rw [hxs] at h; cases h
          | ok recs0 =>
              rw [hxs] at h
              cases h
              intro r hr
              rcases List.mem_cons.mp hr with rfl | hrt
              · rw [normalizeRow] at hx
                cases hext : extract_size_name x.log with
                | none => rw [hext] at hx; cases hx
                | some sn =>
                    rw [hext] at hx
                    cases hx
                    rfl
              · exact ih hxs r hrt

theorem fltKey_inj {x y : Flt} (h1 : fltRank x = fltRank y)
    (h2 : fltVal x = fltVal y) : x = y := by
  cases x <;> cases y <;> simp_all [fltRank, fltVal]

theorem fltKeyLE_antisymm {x y : Flt} (h1 : fltKeyLE x y) (h2 : fltKeyLE y x) :
    x = y := by
  rcases h1 with h1 | ⟨h1, h1'⟩ <;> rcases h2 with h2 | ⟨h2, h2'⟩
  · exact absurd h2 (Nat.lt_asymm h1)
  · exact absurd h1 (by omega)
  · exact absurd h2 (by omega)
  · exact fltKey_inj h1 (le_antisymm h1' h2')

/-- The strict version of the size-key order used to identify the two
sorted lists in the permutation-invariance proof. -/
def sizeLt (a b : Rec) : Prop := sizeLE a b ∧ a.size_numeric ≠ b.size_numeric

/-- Records of one tool, stably sorted by a duplicate-free size key, are
determined by the multiset of records: the sorted lists of two permuted
tables coincide. -/
theorem sortBySize_eq_of_perm {l₁ l₂ : List Rec} (hp : l₁.Perm l₂)
    (hnd : (l₁.map (·.size_numeric)).Nodup) :
    sortBySize l₁ = sortBySize l₂ := by
  have hperm : (sortBySize l₁).Perm (sortBySize l₂) :=
    (List.perm_insertionSort sizeLE l₁).trans
      (hp.trans (List.perm_insertionSort sizeLE l₂).symm)
  have hnd1 : ((sortBySize l₁).map (·.size_numeric)).Nodup :=
    (((List.perm_insertionSort sizeLE l₁).map (·.size_numeric)).nodup_iff).mpr hnd
  have hnd2 : ((sortBySize l₂).map (·.size_numeric)).Nodup := by
    refine (((List.perm_insertionSort sizeLE l₂).map (·.size_numeric)).nodup_iff).mpr ?_
    exact ((hp.map (·.size_numeric)).nodup_iff).mp hnd
  have hs1 : (sortBySize l₁).Sorted sizeLE := List.sorted_insertionSort sizeLE l₁
  have hs2 : (sortBySize l₂).Sorted sizeLE := List.sorted_insertionSort sizeLE l₂
  have upgrade : ∀ {l : List Rec}, l.Sorted sizeLE →
      (l.map (·.size_numeric)).Nodup → l.Pairwise sizeLt := by
    intro l hs hn
    have hne : l.Pairwise (fun a b : Rec => a.size_numeric ≠ b.size_numeric) :=
      List.pairwise_map.mp hn
    exact (List.Pairwise.and hs hne).imp (fun h => h)
  haveI : IsAntisymm Rec sizeLt := ⟨by
    intro a b ⟨hab, hne⟩ ⟨hba, _⟩
    exact absurd (fltKeyLE_antisymm hab hba) hne⟩
  exact List.eq_of_perm_of_sorted hperm (upgrade hs1 hnd1) (upgrade hs2 hnd2)

/-! ## Claims about the Scaling Analyzer (C1, C5, C10) -/

/-- Two normalized rows of one tool whose time doubles as the size doubles. -/
def exScaling : List Rec :=
  [⟨"timber", "x_10k.json", 1, 50, "10k", .fin 10000⟩,
   ⟨"timber", "x_100k.json", 2, 90, "100k", .fin 20000⟩]

/-- C1: for every tool, after sorting its records by `size_numeric`
ascending, the Scaling Analyzer emits exactly one scaling entry per
adjacent pair — entry `i` is built from sorted rows `i` and `i + 1`, whose
`size_ratio`, `time_ratio` and `scaling_factor = time_ratio / size_ratio`
are computed by `scalingComp` — a tool with fewer than 2 observations
produces no entries, and exact doubling of time under exact doubling of
size gives `scaling_factor = 1` exactly. -/
theorem scaling_entries_adjacent_pairs (df : List Rec) (t : String) :
    (entriesForTool df t).length = (sortBySize (toolRecs df t)).length - 1
    ∧ (∀ i, i + 1 < (sortBySize (toolRecs df t)).length →
        (entriesForTool df t).getD i default
          = scalingEntry t ((sortBySize (toolRecs df t)).getD i default)
              ((sortBySize (toolRecs df t)).getD (i + 1) default))
    ∧ ((sortBySize (toolRecs df t)).length < 2 → entriesForTool df t = [])
    ∧ (∀ prev curr : Rec, ∀ s : ℚ,
        prev.time_seconds ≠ 0 → s ≠ 0 → prev.size_numeric = .fin s →
        curr.size_numeric = .fin (2 * s) →
        curr.time_seconds = 2 * prev.time_seconds →
        (scalingComp prev curr).scaling_factor = .fin 1) := by
  refine ⟨?_, ?_, ?_, ?_⟩
  · by_cases h2 : 2 ≤ (sortBySize (toolRecs df t)).length
    · simp [entriesForTool, h2]
    · simp only [entriesForTool, if_neg h2, List.length_nil]
      omega
  · intro i hi
    have h2 : 2 ≤ (sortBySize (toolRecs df t)).length := by omega
    have hi' : i < (sortBySize (toolRecs df t)).length - 1 := by omega
    simp only [entriesForTool, if_pos h2]
    rw [List.getD_eq_getElem?_getD, List.getElem?_map,
      List.getElem?_eq_getElem (by simpa using hi')]
    simp
  · intro h2
    simp [entriesForTool, Nat.not_le.mpr h2]
  · intro prev curr s ht hs hp hc htime
    have h2s : (2 * s) / s = 2 := by field_simp
    have h2t : (2 * prev.time_seconds) / prev.time_seconds = 2 := by
      field_simp
    simp only [scalingComp, hp, hc, htime, fdiv, if_neg hs, if_neg ht, h2s,
      h2t]
    norm_num

unseal Rat.mul Rat.add Rat.inv Rat.sub in
theorem scaling_entries_adjacent_pairs_witness :
    ((entriesForTool exScaling "timber").getD 0 default
        = scalingEntry "timber"
            ((sortBySize (toolRecs exScaling "timber")).getD 0 default)
            ((sortBySize (toolRecs exScaling "timber")).getD 1 default))
    ∧ (scalingComp ⟨"timber", "x_10k.json", 1, 50, "10k", .fin 10000⟩
        ⟨"timber", "x_100k.json", 2, 90, "100k", .fin 20000⟩).scaling_factor
        = .fin 1 :=
  ⟨(scaling_entries_adjacent_pairs exScaling "timber").2.1 0 (by decide),
   (scaling_entries_adjacent_pairs exScaling "timber").2.2.2
     ⟨"timber", "x_10k.json", 1, 50, "10k", .fin 10000⟩
     ⟨"timber", "x_100k.json", 2, 90, "100k", .fin 20000⟩
     10000 (by decide) (by decide) (by decide) (by decide) (by decide)⟩

/-- A tool whose first observation has `time_seconds = 0`, next to an
unaffected second tool. -/
def exZeroTime : List Rec :=
  [⟨"a", "x_10k.json", 0, 1, "10k", .fin 10000⟩,
   ⟨"a", "x_100k.json", 1, 1, "100k", .fin 100000⟩,
   ⟨"b", "x_10k.json", 1, 1, "10k", .fin 10000⟩,
   ⟨"b", "x_100k.json", 2, 1, "100k", .fin 100000⟩]

unseal Rat.mul Rat.add Rat.inv Rat.sub in
/-- C5 counterexample: with `prev.time_seconds = 0` the Scaling Analyzer
does not fail at all — the whole analysis still returns, and the degenerate
pair produces an entry whose ratios are the non-finite float `inf`
(formatted `infx` / `inf`), exactly as numpy's warning-but-no-exception
division behaves; no `DivisionByZeroError` exists in this code path. -/
theorem scaling_zero_time_emits_entry_counterexample :
    generate_scaling_analysis exZeroTime =
      [{ tool := "a", sizeChange := "10k → 100k", timeIncrease := "infx",
         scalingFactor := "inf" },
       { tool := "b", sizeChange := "10k → 100k", timeIncrease := "2.00x",
         scalingFactor := "0.200" }]
    ∧ (exZeroTime.getD 0 default).time_seconds = 0 := by
  constructor
  · decide
  · decide

/-- C5 as amended: the degenerate pairs do not abort anything — a zero
`prev.time_seconds` (resp. a zero finite `prev.size_numeric`) makes the
corresponding ratio the non-finite value `inf` (or `nan` when the
numerator is zero too) inside an ordinary entry, and the entries of every
other tool are untouched: dropping the degenerate tool's rows changes no
other tool's entries. -/
theorem scaling_zero_divisor_amended (df : List Rec) (t other : String)
    (hne : other ≠ t) :
    entriesForTool (df.filter (fun r => r.tool ≠ t)) other
        = entriesForTool df other
    ∧ (∀ prev curr : Rec, prev.time_seconds = 0 → 0 < curr.time_seconds →
        (scalingComp prev curr).time_ratio = .inf)
    ∧ (∀ prev curr : Rec, prev.time_seconds = 0 → curr.time_seconds = 0 →
        (scalingComp prev curr).time_ratio = .nan)
    ∧ (∀ prev curr : Rec, ∀ c : ℚ, prev.size_numeric = .fin 0 →
        curr.size_numeric = .fin c → 0 < c →
        (scalingComp prev curr).size_ratio = .inf) := by
  refine ⟨?_, ?_, ?_, ?_⟩
  · have hfil : toolRecs (df.filter (fun r => r.tool ≠ t)) other
        = toolRecs df other := by
      rw [toolRecs, List.filter_filter]
      refine List.filter_congr ?_
      intro r _
      by_cases h : r.tool = other
      · simp [h, hne]
      · simp [h]
    simp only [entriesForTool, hfil]
  · intro prev curr h0 hpos
    simp [scalingComp, fdiv, h0, hpos]
  · intro prev curr h0 hc0
    simp [scalingComp, fdiv, h0, hc0]
  · intro prev curr c hp hc hpos
    simp [scalingComp, fdiv, hp, hc, hpos]

unseal Rat.mul Rat.add Rat.inv Rat.sub in
theorem scaling_zero_divisor_amended_witness :
    entriesForTool (exZeroTime.filter (fun r => r.tool ≠ "a")) "b"
        = entriesForTool exZeroTime "b"
    ∧ (scalingComp ⟨"a", "x_10k.json", 0, 1, "10k", .fin 10000⟩
        ⟨"a", "x_100k.json", 1, 1, "100k", .fin 100000⟩).time_ratio = .inf :=
  ⟨(scaling_zero_divisor_amended exZeroTime "a" "b" (by decide)).1,
   (scaling_zero_divisor_amended exZeroTime "a" "b" (by decide)).2.1
     ⟨"a", "x_10k.json", 0, 1, "10k", .fin 10000⟩
     ⟨"a", "x_100k.json", 1, 1, "100k", .fin 100000⟩ rfl (by decide)⟩

/-- Two same-tool rows with the same `size_numeric`, in both orders. -/
def exPermA : List Rec :=
  [⟨"a", "l1", 1, 1, "10k", .fin 10⟩, ⟨"a", "l2", 2, 2, "10k", .fin 10⟩]

/-- `exPermA` with its two rows swapped. -/
def exPermB : List Rec :=
  [⟨"a", "l2", 2, 2, "10k", .fin 10⟩, ⟨"a", "l1", 1, 1, "10k", .fin 10⟩]

unseal Rat.mul Rat.add Rat.inv Rat.sub in
/-- C10 counterexample: the Scaling Analyzer's per-tool output is not
invariant under permutation of the input rows — when a tool has two rows
with the same `size_numeric`, the sort cannot separate them, the tied rows
stay in input order, and the two orders give different entries
(`2.00x` versus `0.50x`). -/
theorem scaling_order_dependence_counterexample :
    exPermA.Perm exPermB
    ∧ entriesForTool exPermA "a" ≠ entriesForTool exPermB "a"
    ∧ (entriesForTool exPermA "a").map (·.timeIncrease) = ["2.00x"]
    ∧ (entriesForTool exPermB "a").map (·.timeIncrease) = ["0.50x"] := by
  refine ⟨?_, by decide, by decide, by decide⟩
  exact List.Perm.swap _ _ _

/-- C10 as amended: the per-tool scaling entries are invariant under any
permutation of the input rows provided the tool's rows carry pairwise
distinct `size_numeric` keys (which the spec's `(tool, size_label)`
uniqueness invariant guarantees); the defensive re-sort then determines
the adjacent pairs uniquely. -/
theorem scaling_order_invariance (df1 df2 : List Rec) (t : String)
    (hp : df1.Perm df2)
    (hnd : ((toolRecs df1 t).map (·.size_numeric)).Nodup) :
    entriesForTool df1 t = entriesForTool df2 t := by
  have hf : (toolRecs df1 t).Perm (toolRecs df2 t) := hp.filter _
  have heq : sortBySize (toolRecs df1 t) = sortBySize (toolRecs df2 t) :=
    sortBySize_eq_of_perm hf hnd
  simp only [entriesForTool, heq]

/-- Two same-tool rows with distinct sizes. -/
def exPermC : List Rec :=
  [⟨"a", "l1", 1, 1, "10k", .fin 10000⟩,
   ⟨"a", "l2", 9, 9, "100k", .fin 100000⟩]

/-- `exPermC` with its two rows swapped. -/
def exPermD : List Rec :=
  [⟨"a", "l2", 9, 9, "100k", .fin 100000⟩,
   ⟨"a", "l1", 1, 1, "10k", .fin 10000⟩]

theorem scaling_order_invariance_witness :
    entriesForTool exPermC "a" = entriesForTool exPermD "a" :=
  scaling_order_invariance exPermC exPermD "a" (List.Perm.swap _ _ _)
    (by decide)

/-! ## Claims about the Ranking Engine (C2, C7) -/

/-- C2: inside a size bucket, `time_rank` is the tie-averaged ascending
rank of `time_seconds` (the mean of the consecutive 1-based positions the
tie group occupies above the strictly smaller values), `memory_rank` is
the same for `memory_mb`, and `combined_score` is the unweighted mean of
the two ranks, for every row the Ranking Engine produces. -/
theorem rank_tie_averaging (df : List Rec) (size : String) (row : RankedRow)
    (hrow : row ∈ rankBucket df size) :
    1 ≤ countEq ((bucketRecs df size).map (·.time_seconds)) row.time_seconds
    ∧ row.time_rank
        = meanOfPositions
            (countLt ((bucketRecs df size).map (·.time_seconds))
              row.time_seconds)
            (countEq ((bucketRecs df size).map (·.time_seconds))
              row.time_seconds)
    ∧ 1 ≤ countEq ((bucketRecs df size).map (·.memory_mb)) row.memory_mb
    ∧ row.memory_rank
        = meanOfPositions
            (countLt ((bucketRecs df size).map (·.memory_mb)) row.memory_mb)
            (countEq ((bucketRecs df size).map (·.memory_mb)) row.memory_mb)
    ∧ row.combined_score = (row.time_rank + row.memory_rank) / 2 := by
  simp only [rankBucket] at hrow
  obtain ⟨r, hr, rfl⟩ := List.mem_map.mp hrow
  have hkt : 1 ≤ countEq ((bucketRecs df size).map (·.time_seconds))
      r.time_seconds := by
    refine List.countP_pos_iff.mpr ⟨r.time_seconds, ?_, by simp⟩
    exact List.mem_map.mpr ⟨r, hr, rfl⟩
  have hkm : 1 ≤ countEq ((bucketRecs df size).map (·.memory_mb))
      r.memory_mb := by
    refine List.countP_pos_iff.mpr ⟨r.memory_mb, ?_, by simp⟩
    exact List.mem_map.mpr ⟨r, hr, rfl⟩
  exact ⟨hkt, rankAvg_eq_mean_positions _ _ hkt, hkm,
    rankAvg_eq_mean_positions _ _ hkm, rfl⟩

/-- Three tools tied on both metrics in one bucket. -/
def exRankTie : List Rec :=
  [⟨"t1", "x_10k.json", 5, 7, "10k", .fin 10000⟩,
   ⟨"t2", "y_10k.json", 5, 7, "10k", .fin 10000⟩,
   ⟨"t3", "z_10k.json", 5, 7, "10k", .fin 10000⟩]

/-- The ranked row produced for the first of the three tied tools. -/
def exRankTieRow : RankedRow := ⟨"t1", 5, 7, 2, 2, 2⟩

unseal Rat.mul Rat.add Rat.inv Rat.sub in
theorem rank_tie_averaging_witness :
    exRankTieRow ∈ rankBucket exRankTie "10k"
    ∧ (1 ≤ countEq ((bucketRecs exRankTie "10k").map (·.time_seconds))
          exRankTieRow.time_seconds
       ∧ exRankTieRow.time_rank
           = meanOfPositions
               (countLt ((bucketRecs exRankTie "10k").map (·.time_seconds))
                 exRankTieRow.time_seconds)
               (countEq ((bucketRecs exRankTie "10k").map (·.time_seconds))
                 exRankTieRow.time_seconds)
       ∧ 1 ≤ countEq ((bucketRecs exRankTie "10k").map (·.memory_mb))
           exRankTieRow.memory_mb
       ∧ exRankTieRow.memory_rank
           = meanOfPositions
               (countLt ((bucketRecs exRankTie "10k").map (·.memory_mb))
                 exRankTieRow.memory_mb)
               (countEq ((bucketRecs exRankTie "10k").map (·.memory_mb))
                 exRankTieRow.memory_mb)
       ∧ exRankTieRow.combined_score
           = (exRankTieRow.time_rank + exRankTieRow.memory_rank) / 2)
    ∧ exRankTieRow.time_rank = 2 :=
  ⟨by decide, rank_tie_averaging exRankTie "10k" exRankTieRow (by decide),
   by decide⟩

/-- Two tools with identical metrics, the lexicographically larger name
first in the bucket. -/
def exRankOrder : List Rec :=
  [⟨"b", "x_10k.json", 1, 1, "10k", .fin 10000⟩,
   ⟨"a", "y_10k.json", 1, 1, "10k", .fin 10000⟩]

unseal Rat.mul Rat.add Rat.inv Rat.sub in
/-- C7 counterexample: the Ranking Engine sorts by `combined_score` only —
with two tools of equal `combined_score`, the lexicographically larger
name `"b"` stays first because the tied rows keep their bucket order; no
tie-break by tool name exists in the code. -/
theorem rankings_no_name_tiebreak_counterexample :
    (generate_rankings_for exRankOrder "10k").map (·.tool) = ["b", "a"]
    ∧ (generate_rankings_for exRankOrder "10k").map (·.combined_score)
        = [3 / 2, 3 / 2]
    ∧ strLt "a" "b" = true := by
  refine ⟨by decide, by decide, by decide⟩

/-- C7 as amended: the ranking rows of a bucket are sorted by
`combined_score` ascending and are exactly the bucket's ranked rows; rows
with equal scores keep their relative bucket order (the sort applies no
name tie-break), so adjacent tied pairs of the bucket stay adjacent in
order. -/
theorem rankings_sorted_by_score (df : List Rec) (size : String) :
    (generate_rankings_for df size).Sorted scoreLE
    ∧ (generate_rankings_for df size).Perm (rankBucket df size)
    ∧ (∀ x y : RankedRow, x.combined_score = y.combined_score →
        [x, y].Sublist (rankBucket df size) →
        [x, y].Sublist (generate_rankings_for df size)) := by
  refine ⟨List.sorted_insertionSort scoreLE (rankBucket df size),
    List.perm_insertionSort scoreLE (rankBucket df size), ?_⟩
  intro x y hxy hsub
  refine List.sublist_insertionSort ?_ hsub
  exact List.pairwise_pair.mpr (le_of_eq hxy)

unseal Rat.mul Rat.add Rat.inv Rat.sub in
theorem rankings_sorted_by_score_witness :
    [(⟨"b", 1, 1, 3/2, 3/2, 3/2⟩ : RankedRow), ⟨"a", 1, 1, 3/2, 3/2, 3/2⟩].Sublist
        (generate_rankings_for exRankOrder "10k") :=
  (rankings_sorted_by_score exRankOrder "10k").2.2
    ⟨"b", 1, 1, 3/2, 3/2, 3/2⟩ ⟨"a", 1, 1, 3/2, 3/2, 3/2⟩ rfl (by decide)

/-! ## Claims about the Comparative Ratio Engine (C3) -/

unseal Rat.mul Rat.add Rat.inv Rat.sub in
theorem timeComparisonPhrase_half :
    timeComparisonPhrase (.fin (1 / 2)) = "Timber is 2.00x slower" := by
  decide

/-- A reference row and one slower non-reference tool in one bucket. -/
def exComp : List Rec :=
  [⟨"timber", "x_10k.json", 1, 50, "10k", .fin 10000⟩,
   ⟨"toolB", "x_10k.json", 2, 80, "10k", .fin 10000⟩]

unseal Rat.mul Rat.add Rat.inv Rat.sub in
/-- C3 counterexample: at `time_ratio = 1/2` the code emits the phrase
`"Timber is 2.00x slower"` with the hardcoded capitalized display name
`Timber`, while the reference tool — the name the engine filters the
baseline rows with — is the string `"timber"`, so the phrase is not
`"{reference} is 2.00x slower"` for the reference tool name. -/
theorem comparative_phrase_counterexample :
    (generate_comparative_analysis exComp).map (·.time_ratio) = [.fin (1 / 2)]
    ∧ (generate_comparative_analysis exComp).map (·.time_comparison)
        = ["Timber is 2.00x slower"]
    ∧ referenceTool = "timber"
    ∧ "Timber is 2.00x slower" ≠ referenceTool ++ " is 2.00x slower" := by
  refine ⟨by decide, by decide, by decide, by decide⟩

/-- C3 as amended: for every bucket holding a reference measurement and
every non-reference tool in it, the engine produces the entry with
`time_ratio = reference_time / tool_time` and
`memory_ratio = reference_memory / tool_memory`, and phrases it with the
hardcoded display name `Timber`: `"Timber is {1/ratio:.2f}x slower"` when
the ratio compares below 1, `"Timber is {ratio:.2f}x faster"` otherwise —
in particular `time_ratio = 1/2` yields `"Timber is 2.00x slower"`. -/
theorem comparative_entries (df : List Rec) (size : String) :
    (∀ e ∈ comparativeForSize df size,
      e.time_ratio = fdiv (.fin e.timber_time) (.fin e.tool_time)
      ∧ e.memory_ratio = fdiv (.fin e.timber_memory) (.fin e.tool_memory)
      ∧ e.tool ≠ referenceTool
      ∧ ((bucketRecs df size).find? (fun r => r.tool = referenceTool)).isSome
      ∧ e.time_comparison = timeComparisonPhrase e.time_ratio
      ∧ (∀ q : ℚ, e.time_ratio = .fin q → q < 1 →
          e.time_comparison
            = "Timber is " ++ fmtFlt 2 (fdiv (.fin 1) (.fin q)) ++ "x slower")
      ∧ (∀ q : ℚ, e.time_ratio = .fin q → 1 ≤ q →
          e.time_comparison = "Timber is " ++ fmtFixed 2 q ++ "x faster")
      ∧ (e.time_ratio = .fin (1 / 2) →
          e.time_comparison = "Timber is 2.00x slower"))
    ∧ (∀ tref r : Rec,
        (bucketRecs df size).find? (fun x => x.tool = referenceTool)
            = some tref →
        r ∈ bucketRecs df size → r.tool ≠ referenceTool →
        comparativeEntry size tref r ∈ comparativeForSize df size
        ∧ (comparativeEntry size tref r).time_ratio
            = fdiv (.fin tref.time_seconds) (.fin r.time_seconds)
        ∧ (comparativeEntry size tref r).memory_ratio
            = fdiv (.fin tref.memory_mb) (.fin r.memory_mb)) := by
  constructor
  · intro e he
    rw [comparativeForSize] at he
    cases hfind : (bucketRecs df size).find?
        (fun r => r.tool = referenceTool) with
    | none => rw [hfind] at he; cases he
    | some tref =>
        rw [hfind] at he
        obtain ⟨r, hr, rfl⟩ := List.mem_map.mp he
        have hrtool : r.tool ≠ referenceTool := by
          have := (List.mem_filter.mp hr).2
          simpa using this
        refine ⟨rfl, rfl, hrtool, rfl, rfl, ?_, ?_, ?_⟩
        · intro q hq hlt
          have : (comparativeEntry size tref r).time_comparison
              = timeComparisonPhrase (comparativeEntry size tref r).time_ratio :=
            rfl
          rw [this, hq, timeComparisonPhrase, if_pos (by simpa [fltLt] using hlt)]
        · intro q hq hle
          have : (comparativeEntry size tref r).time_comparison
              = timeComparisonPhrase (comparativeEntry size tref r).time_ratio :=
            rfl
          rw [this, hq, timeComparisonPhrase,
            if_neg (by simpa [fltLt] using not_lt.mpr hle)]
          rfl
        · intro hq
          have : (comparativeEntry size tref r).time_comparison
              = timeComparisonPhrase (comparativeEntry size tref r).time_ratio :=
            rfl
          rw [this, hq, timeComparisonPhrase_half]
  · intro tref r hfind hr hrtool
    refine ⟨?_, rfl, rfl⟩
    rw [comparativeForSize, hfind]
    refine List.mem_map.mpr ⟨r, ?_, rfl⟩
    exact List.mem_filter.mpr ⟨hr, by simpa using hrtool⟩

unseal Rat.mul Rat.add Rat.inv Rat.sub in
theorem comparative_entries_witness :
    comparativeEntry "10k" ⟨"timber", "x_10k.json", 1, 50, "10k", .fin 10000⟩
        ⟨"toolB", "x_10k.json", 2, 80, "10k", .fin 10000⟩
      ∈ comparativeForSize exComp "10k"
    ∧ (comparativeEntry "10k"
        ⟨"timber", "x_10k.json", 1, 50, "10k", .fin 10000⟩
        ⟨"toolB", "x_10k.json", 2, 80, "10k", .fin 10000⟩).time_comparison
      = "Timber is 2.00x slower" :=
  ⟨((comparative_entries exComp "10k").2
      ⟨"timber", "x_10k.json", 1, 50, "10k", .fin 10000⟩
      ⟨"toolB", "x_10k.json", 2, 80, "10k", .fin 10000⟩
      (by decide) (by decide) (by decide)).1,
   by decide⟩

/-! ## Claims about the Record Loader (C4) -/

/-- One raw row whose size token `zz` is absent from `size_mapping`. -/
def exUnknown : List RawRow := [⟨"toolA", "x_zz.json", 1, 2⟩]

unseal Rat.mul Rat.add Rat.inv Rat.sub in
/-- C4 counterexample: a row with the unmapped size token `zz` does not
fail the load at all — `load_data` succeeds and silently stores the pandas
`Series.map` miss (`NaN`) in `size_numeric`; no `UnknownSizeBucketError`
exists anywhere in this code path. -/
theorem loader_unknown_bucket_counterexample :
    load_data exUnknown
        = .ok [⟨"toolA", "x_zz.json", 1, 2, "zz", .nan⟩]
    ∧ size_mapping.lookup "zz" = none := by
  refine ⟨by decide, by decide⟩

/-- C4 as amended: an unmapped size label is not an error, but it is not
given a silent *numeric* default either — every loaded record's
`size_numeric` is exactly the table lookup of its `size_name`, which is
the missing value `NaN` whenever the label is absent from the table. -/
theorem loader_unmapped_label_yields_nan (rows : List RawRow)
    (recs : List Rec) (h : load_data rows = .ok recs) :
    ∀ r ∈ recs, r.size_numeric = mapSize r.size_name
      ∧ (size_mapping.lookup r.size_name = none → r.size_numeric = .nan) := by
  intro r hr
  rw [load_data] at h
  cases hn : normalizeRows rows with
  | error e => rw [hn] at h; cases h
  | ok recs0 =>
      rw [hn] at h
      simp only [Except.map] at h
      cases h
      have hr0 : r ∈ recs0 :=
        (List.perm_insertionSort loadLE recs0).mem_iff.mp hr
      have h1 := normalizeRows_mem hn r hr0
      refine ⟨h1, fun hlook => ?_⟩
      rw [h1, mapSize, hlook]

unseal Rat.mul Rat.add Rat.inv Rat.sub in
theorem loader_unmapped_label_yields_nan_witness :
    (⟨"toolA", "x_zz.json", 1, 2, "zz", .nan⟩ : Rec).size_numeric
        = mapSize (⟨"toolA", "x_zz.json", 1, 2, "zz", .nan⟩ : Rec).size_name
    ∧ (size_mapping.lookup
          (⟨"toolA", "x_zz.json", 1, 2, "zz", .nan⟩ : Rec).size_name = none →
        (⟨"toolA", "x_zz.json", 1, 2, "zz", .nan⟩ : Rec).size_numeric
          = .nan) :=
  loader_unmapped_label_yields_nan exUnknown
    [⟨"toolA", "x_zz.json", 1, 2, "zz", .nan⟩] (by decide)
    ⟨"toolA", "x_zz.json", 1, 2, "zz", .nan⟩ (by decide)

/-! ## Claims about the Pivot Aggregator (C6, C8) -/

/-- Two rows sharing the `(tool, size_label)` key `("t", "10k")`. -/
def exDup : List Rec :=
  [⟨"t", "x_10k.json", 1, 1, "10k", .fin 10000⟩,
   ⟨"t", "y_10k.json", 2, 2, "10k", .fin 10000⟩]

/-- C8: pivoting fails with the duplicate-key error exactly when two
records share a `(size_name, tool)` key; with distinct keys the pivot
succeeds and every record's metric value sits untouched in its own cell
(nothing is overwritten). -/
theorem pivot_duplicate_key (df : List Rec) (m : Metric) :
    (¬ (pivotKeys df).Nodup → pivot df m = .error .duplicateKey)
    ∧ ((pivotKeys df).Nodup →
        ∀ r ∈ df, cellOfExcept (pivot df m) r.size_name r.tool
          = some (metricOf m r)) := by
  constructor
  · intro h
    rw [pivot, if_neg h]
  · intro h r hr
    rw [pivot, if_pos h]
    show pivotCell df m r.size_name r.tool = some (metricOf m r)
    rw [pivotCell, find?_key_unique h hr, Option.map_some']

unseal Rat.mul Rat.add Rat.inv Rat.sub in
theorem pivot_duplicate_key_witness :
    pivot exDup .time = .error .duplicateKey
    ∧ cellOfExcept (pivot exComp .time) "10k" "toolB" = some 2 :=
  ⟨(pivot_duplicate_key exDup .time).1 (by decide),
   by
    have := (pivot_duplicate_key exComp .time).2 (by decide)
      ⟨"toolB", "x_10k.json", 2, 80, "10k", .fin 10000⟩ (by decide)
    exact this⟩

/-- A table holding only a `10k` measurement. -/
def exOnly10k : List Rec := [⟨"timber", "x_10k.json", 1, 50, "10k", .fin 10000⟩]

unseal Rat.mul Rat.add Rat.inv Rat.sub in
/-- C6 counterexample: in `analyze_results.py` the
`pivot_df.reindex(size_order)` call does not omit buckets absent from the
data — with only `10k` measured, the reindexed table still lists the rows
`10k, 100k, 1m`, the absent buckets present as all-`NaN` placeholder rows
(`cell = none`), contradicting "absent buckets are omitted entirely". -/
theorem pivot_reindex_inserts_missing_counterexample :
    rowsOfExcept (generate_time_comparison exOnly10k) = ["10k", "100k", "1m"]
    ∧ exOnly10k.all (fun r => r.size_name ≠ "1m")
    ∧ cellOfExcept (generate_time_comparison exOnly10k) "1m" "timber"
        = none := by
  refine ⟨by decide, by decide, by decide⟩

/-- C6 as amended: rows do appear in the fixed bucket order in both
variants, but the two scripts treat absent buckets differently — the
analyzer's `reindex(size_order)` keeps every fixed bucket as a row (absent
ones holding only missing values), while the charts script's filtered
reindex omits the buckets absent from the data. -/
theorem pivot_fixed_row_order_amended (df : List Rec) (m : Metric)
    (rows : List ChartRow) (s t : String)
    (hnd : (pivotKeys df).Nodup) :
    rowsOfExcept (generate_metric_comparison df m) = size_order
    ∧ (s ∉ df.map (·.size_name) →
        cellOfExcept (generate_metric_comparison df m) s t = none)
    ∧ (charts_time_rows rows).Sublist size_order
    ∧ (s ∉ rows.map (·.size) → s ∉ charts_time_rows rows)
    ∧ (s ∈ size_order → s ∈ rows.map (·.size) → s ∈ charts_time_rows rows) := by
  refine ⟨?_, ?_, List.filter_sublist _, ?_, ?_⟩
  · rw [generate_metric_comparison, pivot, if_pos hnd]
    rfl
  · intro hs
    rw [generate_metric_comparison, pivot, if_pos hnd]
    show pivotCell df m s t = none
    rw [pivotCell]
    rw [List.find?_eq_none.mpr ?_]
    · rfl
    · intro x hx
      simp only [Bool.and_eq_true, decide_eq_true_eq, not_and]
      intro hsize _
      exact absurd (List.mem_map.mpr ⟨x, hx, hsize⟩) hs
  · intro hs hmem
    rw [charts_time_rows] at hmem
    have := (List.mem_filter.mp hmem).2
    exact hs (by simpa using this)
  · intro h1 h2
    rw [charts_time_rows]
    exact List.mem_filter.mpr ⟨h1, by simpa using h2⟩

/-- The loaded charts rows of a single well-formed `10k` line. -/
def exChartRows : List ChartRow :=
  [⟨"t", some "x_10k.json", some "1.0", "10k"⟩]

unseal Rat.mul Rat.add Rat.inv Rat.sub in
theorem pivot_fixed_row_order_amended_witness :
    rowsOfExcept (generate_metric_comparison exOnly10k .time) = size_order
    ∧ cellOfExcept (generate_metric_comparison exOnly10k .time) "1m" "timber"
        = none
    ∧ "1m" ∉ charts_time_rows exChartRows :=
  ⟨(pivot_fixed_row_order_amended exOnly10k .time exChartRows "1m" "timber"
      (by decide)).1,
   (pivot_fixed_row_order_amended exOnly10k .time exChartRows "1m" "timber"
      (by decide)).2.1 (by decide),
   (pivot_fixed_row_order_amended exOnly10k .time exChartRows "1m" "timber"
      (by decide)).2.2.2.1 (by decide)⟩

/-! ## Claims about the lenient headerless loader (C9) -/

/-- C9 counterexample: a row with the wrong column count is not always
skipped — a two-field line (one field short of the three named columns) is
padded with `NaN` and, its log being parseable, survives the load with a
missing time value. -/
theorem lenient_short_row_kept_counterexample :
    chartsLoad [["t", "x_10k.json"]]
        = [{ tool := "t", log := some "x_10k.json", time_field := none,
             size := "10k" }]
    ∧ (["t", "x_10k.json"] : List String).length ≠ 3 := by
  refine ⟨by decide, by decide⟩

/-- C9 as amended: the lenient load is total and skips exactly the lines
pandas drops — lines with more than the three named columns
(`on_bad_lines='skip'`) and lines whose size token cannot be extracted
(including blank logs of short rows) — while any line of at most three
fields with an extractable size token is kept, short lines padded with
missing values; removing a skipped line never changes the result. -/
theorem lenient_load_skips_amended (xs ys : List (List String))
    (bad good : List String) (sz : String)
    (hbad : 3 < bad.length ∨ extract_size (bad.get? 1) = none) :
    chartsLoad (xs ++ bad :: ys) = chartsLoad (xs ++ ys)
    ∧ (good.length ≤ 3 → good ≠ [] →
        extract_size (good.get? 1) = some sz →
        parseChartLine good
          = some { tool := good.headD "", log := good.get? 1,
                   time_field := good.get? 2, size := sz }) := by
  constructor
  · have hnone : parseChartLine bad = none := by
      rcases hbad with h | h
      · rw [parseChartLine, if_neg (by omega), if_pos h]
      · by_cases h0 : bad.length = 0
        · rw [parseChartLine, if_pos h0]
        · by_cases h3 : 3 < bad.length
          · rw [parseChartLine, if_neg h0, if_pos h3]
          · rw [parseChartLine, if_neg h0, if_neg h3, h]
    rw [chartsLoad, chartsLoad, List.filterMap_append, List.filterMap_append,
      List.filterMap_cons, hnone]
  · intro h3 hne hex
    have h0 : ¬ good.length = 0 := by
      simpa [List.length_eq_zero] using hne
    rw [parseChartLine, if_neg h0, if_neg (by omega), hex]

theorem lenient_load_skips_amended_witness :
    chartsLoad [["t", "x_10k.json", "1.0"], ["a", "b", "c", "d"],
        ["u", "y_1m.json", "2.0"]]
      = chartsLoad [["t", "x_10k.json", "1.0"], ["u", "y_1m.json", "2.0"]]
    ∧ parseChartLine ["t", "x_10k.json", "1.0"]
        = some { tool := "t", log := some "x_10k.json",
                 time_field := some "1.0", size := "10k" } :=
  ⟨(lenient_load_skips_amended [["t", "x_10k.json", "1.0"]]
      [["u", "y_1m.json", "2.0"]] ["a", "b", "c", "d"] [] ""
      (Or.inl (by decide))).1,
   (lenient_load_skips_amended [] [] ["a", "b", "c", "d"]
      ["t", "x_10k.json", "1.0"] "10k" (Or.inl (by decide))).2
     (by decide) (by decide) (by decide)⟩

end Timberjack
